import Mathlib

/-!
A shallow embedding of MOOSE's `TaggingInterface`
(framework/src/interfaces/TaggingInterface.C) and proofs of its
specification's properties.

Modelling conventions:
* `TagID` is `Nat`; dense numeric entries are modelled as `Int`
  (the accumulation protocol is about elementwise add / overwrite,
  independent of the concrete scalar type).
* `std::set<TagID>` (the type of `_vector_tags` / `_matrix_tags`,
  declared in the header `TaggingInterface.h`, which is not among the
  sources) is modelled from the spec as a strictly ascending duplicate-free
  list: insertion keeps order and collapses duplicates, iteration is in
  ascending id order.
* libMesh's `DenseVector<Number>` is `List Int`; `DenseMatrix<Number>` is
  a row list `List (List Int)`; `resize` followed by `zero` yields an
  all-zero container of the requested shape; `+=` is the elementwise sum
  (libMesh asserts equal shapes); `=` is a full copy.
* The externally owned destination blocks are modelled by an `Assembly`
  state mapping `(ivar, tag)` to a vector block and `(ivar, jvar, tag)`
  to a matrix block.  `_re_blocks` / `_ke_blocks` hold pointers into that
  state, modelled as optional keys (`none` is a null pointer, as left by
  the constructor's `resize`); commit operations write through the keys.
* `mooseError` aborts the surrounding call, so fallible operations
  return `Except String _` (construction) or pair an optional error
  message with the unchanged state (the `use*Tag` operations).
-/

namespace Moose

abbrev TagID := Nat
abbrev TagName := String
abbrev DenseVector := List Int
abbrev DenseMatrix := List (List Int)

/-- Elementwise sum of dense vectors (`DenseVector::operator+=`; libMesh
asserts equal sizes, so the truncating `zipWith` is only used at equal
lengths). -/
def vecAdd (a b : DenseVector) : DenseVector := List.zipWith (· + ·) a b

/-- Elementwise sum of dense matrices (`DenseMatrix::operator+=`). -/
def matAdd (A B : DenseMatrix) : DenseMatrix := List.zipWith vecAdd A B

/-- Scalar multiple of a dense vector (the spec's `2x`). -/
def vecScale (c : Int) (a : DenseVector) : DenseVector := a.map (fun x => c * x)

/-- Scalar multiple of a dense matrix. -/
def matScale (c : Int) (A : DenseMatrix) : DenseMatrix := A.map (vecScale c)

/-- Row count `DenseMatrix::m()`. -/
def matM (A : DenseMatrix) : Nat := A.length

/-- Column count `DenseMatrix::n()` (0 when there are no rows). -/
def matN (A : DenseMatrix) : Nat := (A.headD []).length

/-- Shape compatibility of two dense matrices: same row count and
rowwise equal lengths. -/
def matShapeEq (A B : DenseMatrix) : Prop :=
  List.Forall₂ (fun r s => r.length = s.length) A B

/-- `std::set<TagID>::insert`: insert into a strictly ascending list,
collapsing duplicates. -/
def setInsert (t : TagID) : List TagID → List TagID
  | [] => [t]
  | a :: s => if t < a then t :: a :: s else if t = a then a :: s else a :: setInsert t s

/-- The `std::set` representation invariant: strictly ascending entries
(pairwise `<`, i.e. `List.Sorted (· < ·)`). -/
abbrev SortedTags (s : List TagID) : Prop := List.Pairwise (· < ·) s

/-- The Tag Registry slice of `SubProblem`: the global name-to-id maps of
the two independent tag namespaces. -/
structure SubProblem where
  vectorRegistry : List (TagName × TagID)
  matrixRegistry : List (TagName × TagID)
deriving DecidableEq

/-- Name lookup in one registry namespace. -/
def lookupTag (reg : List (TagName × TagID)) (n : TagName) : Option TagID :=
  (reg.find? (fun p => p.1 == n)).map (fun p => p.2)

/-- `SubProblem::getVectorTagID(name)` as a pure lookup. -/
def SubProblem.getVectorTagID (sp : SubProblem) (n : TagName) : Option TagID :=
  lookupTag sp.vectorRegistry n

/-- `SubProblem::getMatrixTagID(name)` as a pure lookup. -/
def SubProblem.getMatrixTagID (sp : SubProblem) (n : TagName) : Option TagID :=
  lookupTag sp.matrixRegistry n

/-- `SubProblem::vectorTagExists(name)`. -/
def SubProblem.vectorTagExists (sp : SubProblem) (n : TagName) : Bool :=
  (sp.getVectorTagID n).isSome

/-- `SubProblem::matrixTagExists(name)`. -/
def SubProblem.matrixTagExists (sp : SubProblem) (n : TagName) : Bool :=
  (sp.getMatrixTagID n).isSome

/-- `SubProblem::vectorTagExists(TagID)`: the id is registered in the
vector namespace. -/
def SubProblem.vectorTagIdExists (sp : SubProblem) (t : TagID) : Bool :=
  sp.vectorRegistry.any (fun p => p.2 == t)

/-- `SubProblem::matrixTagExists(TagID)`. -/
def SubProblem.matrixTagIdExists (sp : SubProblem) (t : TagID) : Bool :=
  sp.matrixRegistry.any (fun p => p.2 == t)

/-- The tagging-relevant slice of the owning object's `InputParameters`:
the current values of the `vector_tags` / `matrix_tags` multi-enums
(`isValid()` is emptiness of the current value list) and the optional
extra tag-name lists. -/
structure TagParams where
  vector_tags : List TagName
  matrix_tags : List TagName
  extra_vector_tags : List TagName
  extra_matrix_tags : List TagName
deriving DecidableEq

/-- The mutable state of a `TaggingInterface` object: the two active tag
sets, the two binding arrays of block pointers (`none` = null), and the
two local scratch buffers. -/
structure TaggingInterface where
  vector_tags : List TagID
  matrix_tags : List TagID
  re_blocks : List (Option (Nat × TagID))
  ke_blocks : List (Option (Nat × Nat × TagID))
  local_re : DenseVector
  local_ke : DenseMatrix
deriving DecidableEq

/-- Resolve each name through one registry namespace and insert the id
into the accumulating tag set, left to right.
Modelled from the spec: `SubProblem::getVectorTagID` /
`getMatrixTagID` (outside the sources) fail with a lookup error when the
name is not registered; `errKind` is the namespace's noun for that
message. -/
def insertResolvedTags (reg : List (TagName × TagID)) (errKind : String) :
    List TagName → List TagID → Except String (List TagID)
  | [], s => .ok s
  | n :: rest, s =>
    match lookupTag reg n with
    | some t => insertResolvedTags reg errKind rest (setInsert t s)
    | none => .error (errKind ++ " tag " ++ n ++ " does not exist")

/-- `TaggingInterface::TaggingInterface`: check the `vector_tags`
selection is valid, resolve and insert its names, then the
`extra_vector_tags` names; same for the matrix namespace; finally size
the binding arrays to the active-set sizes (all entries null). -/
def TaggingInterface.construct (objName : String) (sp : SubProblem) (p : TagParams) :
    Except String TaggingInterface :=
  if p.vector_tags.isEmpty then
    .error ("MUST provide at least one vector_tag for Kernel: " ++ objName)
  else
    match insertResolvedTags sp.vectorRegistry "Vector" p.vector_tags [] with
    | .error e => .error e
    | .ok vset0 =>
      match insertResolvedTags sp.vectorRegistry "Vector" p.extra_vector_tags vset0 with
      | .error e => .error e
      | .ok vset =>
        if p.matrix_tags.isEmpty then
          .error ("MUST provide at least one matrix_tag for Kernel: " ++ objName)
        else
          match insertResolvedTags sp.matrixRegistry "Matrix" p.matrix_tags [] with
          | .error e => .error e
          | .ok mset0 =>
            match insertResolvedTags sp.matrixRegistry "Matrix" p.extra_matrix_tags mset0 with
            | .error e => .error e
            | .ok mset =>
              .ok { vector_tags := vset
                    matrix_tags := mset
                    re_blocks := List.replicate vset.length none
                    ke_blocks := List.replicate mset.length none
                    local_re := []
                    local_ke := [] }

/-- `TaggingInterface::useVectorTag(const TagName &)`: error if the name
is not registered (the state is untouched), else insert the resolved id.
The source checks `vectorTagExists(name)` and then calls
`getVectorTagID(name)`; both are the same registry lookup, folded into
one `match` here. -/
def useVectorTagName (sp : SubProblem) (tag_name : TagName) (ti : TaggingInterface) :
    Option String × TaggingInterface :=
  match sp.getVectorTagID tag_name with
  | none => (some ("Vector tag " ++ tag_name ++ " does not exsit in system"), ti)
  | some t => (none, { ti with vector_tags := setInsert t ti.vector_tags })

/-- `TaggingInterface::useMatrixTag(const TagName &)`. -/
def useMatrixTagName (sp : SubProblem) (tag_name : TagName) (ti : TaggingInterface) :
    Option String × TaggingInterface :=
  match sp.getMatrixTagID tag_name with
  | none => (some ("Matrix tag " ++ tag_name ++ " does not exsit in system"), ti)
  | some t => (none, { ti with matrix_tags := setInsert t ti.matrix_tags })

/-- `TaggingInterface::useVectorTag(TagID)`: error if the id is not
registered (state untouched), else insert the id itself. -/
def useVectorTagId (sp : SubProblem) (tag_id : TagID) (ti : TaggingInterface) :
    Option String × TaggingInterface :=
  if sp.vectorTagIdExists tag_id then
    (none, { ti with vector_tags := setInsert tag_id ti.vector_tags })
  else
    (some ("Vector tag " ++ toString tag_id ++ " does not exsit in system"), ti)

/-- `TaggingInterface::useMatrixTag(TagID)`. -/
def useMatrixTagId (sp : SubProblem) (tag_id : TagID) (ti : TaggingInterface) :
    Option String × TaggingInterface :=
  if sp.matrixTagIdExists tag_id then
    (none, { ti with matrix_tags := setInsert tag_id ti.matrix_tags })
  else
    (some ("Matrix tag " ++ toString tag_id ++ " does not exsit in system"), ti)

/-- The Assembly provider's externally owned destination blocks, indexed
by `(ivar, tag)` (`Assembly::residualBlock`) and `(ivar, jvar, tag)`
(`Assembly::jacobianBlock`). -/
structure Assembly where
  res : Nat → TagID → DenseVector
  jac : Nat → Nat → TagID → DenseMatrix

/-- `TaggingInterface::prepareVectorTag`: resize `_re_blocks` to the
active-set size and store, at each position `i`, the pointer to the
residual block of `(ivar, i-th tag of the set iteration)` — the resize
plus the full index loop amount to mapping over the tag set in iteration
order.  Then size the local scratch buffer to the first bound block's
size and zero it (`resize` + `zero`).  An empty active set is excluded by
`mooseAssert` (dereferencing `_re_blocks[0]` would be undefined); the
model returns size 0 in that unreachable case. -/
def prepareVectorTag (assembly : Assembly) (ivar : Nat) (ti : TaggingInterface) :
    TaggingInterface :=
  let sz := match ti.vector_tags with
            | [] => 0
            | t :: _ => (assembly.res ivar t).length
  { ti with re_blocks := ti.vector_tags.map (fun t => some (ivar, t))
            local_re := List.replicate sz 0 }

/-- `TaggingInterface::prepareMatrixTag`: analogous for the matrix
namespace; the scratch matrix is sized to the first bound block's
`m() × n()` and zeroed. -/
def prepareMatrixTag (assembly : Assembly) (ivar jvar : Nat) (ti : TaggingInterface) :
    TaggingInterface :=
  let mn := match ti.matrix_tags with
            | [] => (0, 0)
            | t :: _ => (matM (assembly.jac ivar jvar t), matN (assembly.jac ivar jvar t))
  { ti with ke_blocks := ti.matrix_tags.map (fun t => some (ivar, jvar, t))
            local_ke := List.replicate mn.1 (List.replicate mn.2 0) }

/-- Overwrite one vector destination block of the assembly state. -/
def updateRes (a : Assembly) (k : Nat × TagID) (v : DenseVector) : Assembly :=
  { a with res := fun i t => if i = k.1 ∧ t = k.2 then v else a.res i t }

/-- Overwrite one matrix destination block of the assembly state. -/
def updateJac (a : Assembly) (k : Nat × Nat × TagID) (V : DenseMatrix) : Assembly :=
  { a with jac := fun i j t => if i = k.1 ∧ j = k.2.1 ∧ t = k.2.2 then V else a.jac i j t }

/-- The loop of `accumulateTaggedLocalResidual`, over an explicit
binding list: `*re += _local_re` for each bound pointer.  A null pointer
is never present after a `prepare` call; dereferencing one would be
undefined, so the model skips it. -/
def accumResLoop (v : DenseVector) : List (Option (Nat × TagID)) → Assembly → Assembly
  | [], a => a
  | none :: L, a => accumResLoop v L a
  | some k :: L, a => accumResLoop v L (updateRes a k (vecAdd (a.res k.1 k.2) v))

/-- The loop of `assignTaggedLocalResidual`: `*re = _local_re`. -/
def assignResLoop (v : DenseVector) : List (Option (Nat × TagID)) → Assembly → Assembly
  | [], a => a
  | none :: L, a => assignResLoop v L a
  | some k :: L, a => assignResLoop v L (updateRes a k v)

/-- The loop of `accumulateTaggedLocalMatrix`: `*ke += _local_ke`. -/
def accumJacLoop (V : DenseMatrix) : List (Option (Nat × Nat × TagID)) → Assembly → Assembly
  | [], a => a
  | none :: L, a => accumJacLoop V L a
  | some k :: L, a => accumJacLoop V L (updateJac a k (matAdd (a.jac k.1 k.2.1 k.2.2) V))

/-- The loop of `assignTaggedLocalMatrix`: `*ke = _local_ke`. -/
def assignJacLoop (V : DenseMatrix) : List (Option (Nat × Nat × TagID)) → Assembly → Assembly
  | [], a => a
  | none :: L, a => assignJacLoop V L a
  | some k :: L, a => assignJacLoop V L (updateJac a k V)

/-- `TaggingInterface::accumulateTaggedLocalResidual`. -/
def accumulateTaggedLocalResidual (ti : TaggingInterface) (assembly : Assembly) : Assembly :=
  accumResLoop ti.local_re ti.re_blocks assembly

/-- `TaggingInterface::assignTaggedLocalResidual`. -/
def assignTaggedLocalResidual (ti : TaggingInterface) (assembly : Assembly) : Assembly :=
  assignResLoop ti.local_re ti.re_blocks assembly

/-- `TaggingInterface::accumulateTaggedLocalMatrix`. -/
def accumulateTaggedLocalMatrix (ti : TaggingInterface) (assembly : Assembly) : Assembly :=
  accumJacLoop ti.local_ke ti.ke_blocks assembly

/-- `TaggingInterface::assignTaggedLocalMatrix`. -/
def assignTaggedLocalMatrix (ti : TaggingInterface) (assembly : Assembly) : Assembly :=
  assignJacLoop ti.local_ke ti.ke_blocks assembly

/-- The tag ids of the currently bound vector blocks, in binding order
(observer used to state the binding-order property). -/
def boundVectorTags (ti : TaggingInterface) : List TagID :=
  ti.re_blocks.filterMap (fun ob => ob.map (fun k => k.2))

/-- The tag ids of the currently bound matrix blocks, in binding order. -/
def boundMatrixTags (ti : TaggingInterface) : List TagID :=
  ti.ke_blocks.filterMap (fun ob => ob.map (fun k => k.2.2))

/-! Concrete fixtures used to witness the theorems on explicit inputs. -/

/-- A small concrete registry: two vector tags and two matrix tags. -/
def spW : SubProblem :=
  { vectorRegistry := [("nontime", 0), ("time", 1)]
    matrixRegistry := [("system", 0), ("mass", 1)] }

/-- A concrete parameter set; the extra vector tag duplicates a
configured one. -/
def pW : TagParams :=
  { vector_tags := ["nontime", "time"]
    matrix_tags := ["system"]
    extra_vector_tags := ["time"]
    extra_matrix_tags := [] }

/-- A concrete interface state with both tags of each namespace active. -/
def tiW : TaggingInterface :=
  { vector_tags := [0, 1]
    matrix_tags := [0, 1]
    re_blocks := [none, none]
    ke_blocks := [none, none]
    local_re := []
    local_ke := [] }

/-- A concrete assembly state: every vector block has size 2, every
matrix block is 2 by 2. -/
def asmW : Assembly :=
  { res := fun i t => [Int.ofNat i, Int.ofNat t]
    jac := fun i j t => [[Int.ofNat i, Int.ofNat j], [Int.ofNat t, 7]] }

/-- A registry for the binding-capacity analysis: vector tag 1 is
registered but not active below. -/
def spC8 : SubProblem :=
  { vectorRegistry := [("a", 0), ("b", 1)]
    matrixRegistry := [("m", 0)] }

/-- Parameters selecting one vector tag and one matrix tag. -/
def pC8 : TagParams :=
  { vector_tags := ["a"]
    matrix_tags := ["m"]
    extra_vector_tags := []
    extra_matrix_tags := [] }

/-- The interface state produced by constructing from `spC8`/`pC8`. -/
def tiC8 : TaggingInterface :=
  { vector_tags := [0]
    matrix_tags := [0]
    re_blocks := [none]
    ke_blocks := [none]
    local_re := []
    local_ke := [] }

/-! ### Lemmas about the `std::set` model -/

theorem mem_setInsert {a t : TagID} {s : List TagID} :
    a ∈ setInsert t s ↔ a = t ∨ a ∈ s := by
  induction s with
  | nil => simp [setInsert]
  | cons b s ih =>
    simp only [setInsert]
    split_ifs with h1 h2
    · simp
    · subst h2; simp [or_comm, or_assoc]
    · simp only [List.mem_cons, ih]
      tauto

theorem setInsert_sorted {t : TagID} {s : List TagID} (hs : SortedTags s) :
    SortedTags (setInsert t s) := by
  induction s with
  | nil => simp [setInsert, SortedTags]
  | cons b s ih =>
    obtain ⟨hb, hs⟩ := List.pairwise_cons.mp hs
    simp only [setInsert]
    split_ifs with h1 h2
    · refine List.Pairwise.cons ?_ (List.Pairwise.cons hb hs)
      intro x hx
      rcases List.mem_cons.mp hx with rfl | hx
      · exact h1
      · exact lt_trans h1 (hb x hx)
    · exact List.Pairwise.cons hb hs
    · refine List.Pairwise.cons ?_ (ih hs)
      intro x hx
      rcases mem_setInsert.mp hx with hxt | hx
      · have hbt : b < t := lt_of_le_of_ne (Nat.not_lt.mp h1) (fun h => h2 h.symm)
        exact hxt.symm ▸ hbt
      · exact hb x hx

theorem SortedTags.nodup {s : List TagID} (hs : SortedTags s) : s.Nodup :=
  List.Pairwise.nodup hs

theorem setInsert_of_mem {t : TagID} {s : List TagID} (hs : SortedTags s)
    (hm : t ∈ s) : setInsert t s = s := by
  induction s with
  | nil => cases hm
  | cons b s ih =>
    obtain ⟨hb, hs⟩ := List.pairwise_cons.mp hs
    simp only [setInsert]
    rcases List.mem_cons.mp hm with rfl | hm
    · simp
    · have hbt : b < t := hb t hm
      rw [if_neg (Nat.lt_asymm hbt), if_neg (Ne.symm (Nat.ne_of_lt hbt)), ih hs hm]

/-! ### Lemmas about dense containers -/

theorem vecAdd_vecAdd_self (b v : DenseVector) :
    vecAdd (vecAdd b v) v = vecAdd b (vecScale 2 v) := by
  induction b generalizing v with
  | nil => simp [vecAdd, vecScale]
  | cons x b ih =>
    cases v with
    | nil => simp [vecAdd, vecScale]
    | cons y v =>
      simp only [vecAdd, vecScale, List.zipWith, List.map]
      refine congrArg₂ _ (by ring) ?_
      exact ih v

theorem matAdd_matAdd_self (B V : DenseMatrix) :
    matAdd (matAdd B V) V = matAdd B (matScale 2 V) := by
  induction B generalizing V with
  | nil => simp [matAdd, matScale]
  | cons r B ih =>
    cases V with
    | nil => simp [matAdd, matScale]
    | cons s V =>
      simp only [matAdd, matScale, List.zipWith, List.map]
      exact congrArg₂ _ (vecAdd_vecAdd_self r s) (ih V)

theorem vecAdd_length {b v : DenseVector} (h : b.length = v.length) :
    (vecAdd b v).length = b.length := by
  simp [vecAdd, h]

/-! ### Lemmas about the commit loops -/

theorem updateRes_res_self (a : Assembly) (k : Nat × TagID) (v : DenseVector) :
    (updateRes a k v).res k.1 k.2 = v := by
  simp [updateRes]

theorem updateRes_res_other (a : Assembly) (k : Nat × TagID) (v : DenseVector)
    {i : Nat} {t : TagID} (h : (i, t) ≠ k) :
    (updateRes a k v).res i t = a.res i t := by
  have : ¬(i = k.1 ∧ t = k.2) := by
    rcases k with ⟨k1, k2⟩
    intro hc
    exact h (by simp [hc.1, hc.2])
  simp [updateRes, this]

theorem updateRes_jac (a : Assembly) (k : Nat × TagID) (v : DenseVector) :
    (updateRes a k v).jac = a.jac := rfl

theorem updateJac_jac_self (a : Assembly) (k : Nat × Nat × TagID) (V : DenseMatrix) :
    (updateJac a k V).jac k.1 k.2.1 k.2.2 = V := by
  simp [updateJac]

theorem updateJac_jac_other (a : Assembly) (k : Nat × Nat × TagID) (V : DenseMatrix)
    {i j : Nat} {t : TagID} (h : (i, j, t) ≠ k) :
    (updateJac a k V).jac i j t = a.jac i j t := by
  have : ¬(i = k.1 ∧ j = k.2.1 ∧ t = k.2.2) := by
    rcases k with ⟨k1, k2, k3⟩
    intro hc
    exact h (by simp [hc.1, hc.2.1, hc.2.2])
  simp [updateJac, this]

theorem updateJac_res (a : Assembly) (k : Nat × Nat × TagID) (V : DenseMatrix) :
    (updateJac a k V).res = a.res := rfl

theorem accumResLoop_res_not_mem (v : DenseVector) {L : List (Option (Nat × TagID))}
    (a : Assembly) {i : Nat} {t : TagID} (h : some (i, t) ∉ L) :
    (accumResLoop v L a).res i t = a.res i t := by
  induction L generalizing a with
  | nil => rfl
  | cons ob L ih =>
    match ob with
    | none =>
      exact ih _ (fun hm => h (List.mem_cons_of_mem _ hm))
    | some k =>
      have hk : (i, t) ≠ k := by
        intro hc; exact h (by rw [hc]; exact List.mem_cons_self _ _)
      rw [accumResLoop, ih _ (fun hm => h (List.mem_cons_of_mem _ hm)),
        updateRes_res_other _ _ _ hk]

theorem accumResLoop_res_mem (v : DenseVector) {L : List (Option (Nat × TagID))}
    (a : Assembly) {i : Nat} {t : TagID} (hm : some (i, t) ∈ L) (hnd : L.Nodup) :
    (accumResLoop v L a).res i t = vecAdd (a.res i t) v := by
  induction L generalizing a with
  | nil => cases hm
  | cons ob L ih =>
    rcases List.mem_cons.mp hm with heq | hm2
    · subst heq
      rw [accumResLoop,
        accumResLoop_res_not_mem v _ ((List.nodup_cons.mp hnd).1),
        updateRes_res_self]
    · match ob with
      | none => exact ih _ hm2 (List.nodup_cons.mp hnd).2
      | some k =>
        have hk : (i, t) ≠ k := by
          rintro rfl
          exact (List.nodup_cons.mp hnd).1 hm2
        rw [accumResLoop, ih _ hm2 (List.nodup_cons.mp hnd).2,
          updateRes_res_other _ _ _ hk]

theorem accumResLoop_jac (v : DenseVector) (L : List (Option (Nat × TagID)))
    (a : Assembly) : (accumResLoop v L a).jac = a.jac := by
  induction L generalizing a with
  | nil => rfl
  | cons ob L ih =>
    match ob with
    | none => exact ih _
    | some k => rw [accumResLoop, ih, updateRes_jac]

theorem assignResLoop_res_not_mem (v : DenseVector) {L : List (Option (Nat × TagID))}
    (a : Assembly) {i : Nat} {t : TagID} (h : some (i, t) ∉ L) :
    (assignResLoop v L a).res i t = a.res i t := by
  induction L generalizing a with
  | nil => rfl
  | cons ob L ih =>
    match ob with
    | none => exact ih _ (fun hm => h (List.mem_cons_of_mem _ hm))
    | some k =>
      have hk : (i, t) ≠ k := by
        intro hc; exact h (by rw [hc]; exact List.mem_cons_self _ _)
      rw [assignResLoop, ih _ (fun hm => h (List.mem_cons_of_mem _ hm)),
        updateRes_res_other _ _ _ hk]

theorem assignResLoop_res_mem (v : DenseVector) {L : List (Option (Nat × TagID))}
    (a : Assembly) {i : Nat} {t : TagID} (hm : some (i, t) ∈ L) (hnd : L.Nodup) :
    (assignResLoop v L a).res i t = v := by
  induction L generalizing a with
  | nil => cases hm
  | cons ob L ih =>
    rcases List.mem_cons.mp hm with heq | hm2
    · subst heq
      rw [assignResLoop,
        assignResLoop_res_not_mem v _ ((List.nodup_cons.mp hnd).1)]
      exact updateRes_res_self a (i, t) v
    · match ob with
      | none => exact ih _ hm2 (List.nodup_cons.mp hnd).2
      | some k =>
        rw [assignResLoop, ih _ hm2 (List.nodup_cons.mp hnd).2]

theorem assignResLoop_jac (v : DenseVector) (L : List (Option (Nat × TagID)))
    (a : Assembly) : (assignResLoop v L a).jac = a.jac := by
  induction L generalizing a with
  | nil => rfl
  | cons ob L ih =>
    match ob with
    | none => exact ih _
    | some k => rw [assignResLoop, ih, updateRes_jac]

theorem accumJacLoop_jac_not_mem (V : DenseMatrix) {L : List (Option (Nat × Nat × TagID))}
    (a : Assembly) {i j : Nat} {t : TagID} (h : some (i, j, t) ∉ L) :
    (accumJacLoop V L a).jac i j t = a.jac i j t := by
  induction L generalizing a with
  | nil => rfl
  | cons ob L ih =>
    match ob with
    | none => exact ih _ (fun hm => h (List.mem_cons_of_mem _ hm))
    | some k =>
      have hk : (i, j, t) ≠ k := by
        intro hc; exact h (by rw [hc]; exact List.mem_cons_self _ _)
      rw [accumJacLoop, ih _ (fun hm => h (List.mem_cons_of_mem _ hm)),
        updateJac_jac_other _ _ _ hk]

theorem accumJacLoop_jac_mem (V : DenseMatrix) {L : List (Option (Nat × Nat × TagID))}
    (a : Assembly) {i j : Nat} {t : TagID} (hm : some (i, j, t) ∈ L) (hnd : L.Nodup) :
    (accumJacLoop V L a).jac i j t = matAdd (a.jac i j t) V := by
  induction L generalizing a with
  | nil => cases hm
  | cons ob L ih =>
    rcases List.mem_cons.mp hm with heq | hm2
    · subst heq
      rw [accumJacLoop,
        accumJacLoop_jac_not_mem V _ ((List.nodup_cons.mp hnd).1)]
      exact updateJac_jac_self a (i, j, t) _
    · match ob with
      | none => exact ih _ hm2 (List.nodup_cons.mp hnd).2
      | some k =>
        have hk : (i, j, t) ≠ k := by
          rintro rfl
          exact (List.nodup_cons.mp hnd).1 hm2
        rw [accumJacLoop, ih _ hm2 (List.nodup_cons.mp hnd).2,
          updateJac_jac_other _ _ _ hk]

theorem accumJacLoop_res (V : DenseMatrix) (L : List (Option (Nat × Nat × TagID)))
    (a : Assembly) : (accumJacLoop V L a).res = a.res := by
  induction L generalizing a with
  | nil => rfl
  | cons ob L ih =>
    match ob with
    | none => exact ih _
    | some k => rw [accumJacLoop, ih, updateJac_res]

theorem assignJacLoop_jac_not_mem (V : DenseMatrix) {L : List (Option (Nat × Nat × TagID))}
    (a : Assembly) {i j : Nat} {t : TagID} (h : some (i, j, t) ∉ L) :
    (assignJacLoop V L a).jac i j t = a.jac i j t := by
  induction L generalizing a with
  | nil => rfl
  | cons ob L ih =>
    match ob with
    | none => exact ih _ (fun hm => h (List.mem_cons_of_mem _ hm))
    | some k =>
      have hk : (i, j, t) ≠ k := by
        intro hc; exact h (by rw [hc]; exact List.mem_cons_self _ _)
      rw [assignJacLoop, ih _ (fun hm => h (List.mem_cons_of_mem _ hm)),
        updateJac_jac_other _ _ _ hk]

theorem assignJacLoop_jac_mem (V : DenseMatrix) {L : List (Option (Nat × Nat × TagID))}
    (a : Assembly) {i j : Nat} {t : TagID} (hm : some (i, j, t) ∈ L) (hnd : L.Nodup) :
    (assignJacLoop V L a).jac i j t = V := by
  induction L generalizing a with
  | nil => cases hm
  | cons ob L ih =>
    rcases List.mem_cons.mp hm with heq | hm2
    · subst heq
      rw [assignJacLoop,
        assignJacLoop_jac_not_mem V _ ((List.nodup_cons.mp hnd).1)]
      exact updateJac_jac_self a (i, j, t) V
    · match ob with
      | none => exact ih _ hm2 (List.nodup_cons.mp hnd).2
      | some k =>
        rw [assignJacLoop, ih _ hm2 (List.nodup_cons.mp hnd).2]

theorem assignJacLoop_res (V : DenseMatrix) (L : List (Option (Nat × Nat × TagID)))
    (a : Assembly) : (assignJacLoop V L a).res = a.res := by
  induction L generalizing a with
  | nil => rfl
  | cons ob L ih =>
    match ob with
    | none => exact ih _
    | some k => rw [assignJacLoop, ih, updateJac_res]

/-! ### Lemmas about tag resolution and construction -/

theorem insertResolvedTags_exists_ok (reg : List (TagName × TagID)) (ek : String)
    (names : List TagName) (acc : List TagID)
    (h : ∀ n ∈ names, (lookupTag reg n).isSome = true) :
    ∃ s, insertResolvedTags reg ek names acc = Except.ok s := by
  induction names generalizing acc with
  | nil => exact ⟨acc, rfl⟩
  | cons n rest ih =>
    obtain ⟨t, ht⟩ := Option.isSome_iff_exists.mp (h n (List.mem_cons_self _ _))
    simp only [insertResolvedTags, ht]
    exact ih (setInsert t acc) (fun m hm => h m (List.mem_cons_of_mem _ hm))

theorem insertResolvedTags_ok_mem {reg : List (TagName × TagID)} {ek : String}
    {names : List TagName} {acc s : List TagID}
    (h : insertResolvedTags reg ek names acc = Except.ok s) (x : TagID) :
    x ∈ s ↔ x ∈ acc ∨ ∃ n, n ∈ names ∧ lookupTag reg n = some x := by
  induction names generalizing acc with
  | nil =>
    simp only [insertResolvedTags] at h
    cases h
    simp
  | cons n rest ih =>
    simp only [insertResolvedTags] at h
    cases hl : lookupTag reg n with
    | none =>
      rw [hl] at h
      exact Except.noConfusion h
    | some t =>
      rw [hl] at h
      rw [ih h, mem_setInsert]
      constructor
      · rintro ((rfl | hacc) | ⟨m, hm, hmx⟩)
        · exact Or.inr ⟨n, List.mem_cons_self _ _, hl⟩
        · exact Or.inl hacc
        · exact Or.inr ⟨m, List.mem_cons_of_mem _ hm, hmx⟩
      · rintro (hacc | ⟨m, hm, hmx⟩)
        · exact Or.inl (Or.inr hacc)
        · rcases List.mem_cons.mp hm with rfl | hmr
          · refine Or.inl (Or.inl ?_)
            rw [hl] at hmx
            exact (Option.some.inj hmx).symm
          · exact Or.inr ⟨m, hmr, hmx⟩

theorem insertResolvedTags_ok_sorted {reg : List (TagName × TagID)} {ek : String}
    {names : List TagName} {acc s : List TagID}
    (hacc : SortedTags acc) (h : insertResolvedTags reg ek names acc = Except.ok s) :
    SortedTags s := by
  induction names generalizing acc with
  | nil =>
    simp only [insertResolvedTags] at h
    cases h
    exact hacc
  | cons n rest ih =>
    simp only [insertResolvedTags] at h
    cases hl : lookupTag reg n with
    | none =>
      rw [hl] at h
      exact Except.noConfusion h
    | some t =>
      rw [hl] at h
      exact ih (setInsert_sorted hacc) h

theorem sortedTags_nil : SortedTags [] := List.Pairwise.nil

theorem construct_ok_fields {objName : String} {sp : SubProblem} {p : TagParams}
    {ti : TaggingInterface} (h : TaggingInterface.construct objName sp p = Except.ok ti) :
    ti.re_blocks = List.replicate ti.vector_tags.length none ∧
    ti.ke_blocks = List.replicate ti.matrix_tags.length none ∧
    SortedTags ti.vector_tags ∧ SortedTags ti.matrix_tags := by
  unfold TaggingInterface.construct at h
  split at h
  · exact Except.noConfusion h
  · split at h
    · exact Except.noConfusion h
    · next vset0 heq1 =>
      split at h
      · exact Except.noConfusion h
      · next vset heq2 =>
        split at h
        · exact Except.noConfusion h
        · split at h
          · exact Except.noConfusion h
          · next mset0 heq3 =>
            split at h
            · exact Except.noConfusion h
            · next mset heq4 =>
              cases h
              refine ⟨rfl, rfl, ?_, ?_⟩
              · exact insertResolvedTags_ok_sorted
                  (insertResolvedTags_ok_sorted sortedTags_nil heq1) heq2
              · exact insertResolvedTags_ok_sorted
                  (insertResolvedTags_ok_sorted sortedTags_nil heq3) heq4

/-! ### Helper lemmas about the binding lists produced by prepare -/

theorem re_keys_nodup {tags : List TagID} (ivar : Nat) (h : tags.Nodup) :
    (tags.map (fun t => some ((ivar, t) : Nat × TagID))).Nodup :=
  h.map (fun a b hab => by injection hab with h2; injection h2)

theorem ke_keys_nodup {tags : List TagID} (ivar jvar : Nat) (h : tags.Nodup) :
    (tags.map (fun t => some ((ivar, jvar, t) : Nat × Nat × TagID))).Nodup :=
  h.map (fun a b hab => by
    injection hab with h2
    injection h2 with h3 h4
    injection h4)

theorem re_keys_mem {tags : List TagID} {tag : TagID} (ivar : Nat) (h : tag ∈ tags) :
    some (ivar, tag) ∈ tags.map (fun t => some ((ivar, t) : Nat × TagID)) :=
  List.mem_map_of_mem _ h

theorem ke_keys_mem {tags : List TagID} {tag : TagID} (ivar jvar : Nat) (h : tag ∈ tags) :
    some (ivar, jvar, tag) ∈ tags.map (fun t => some ((ivar, jvar, t) : Nat × Nat × TagID)) :=
  List.mem_map_of_mem _ h

/-! ### The claims -/

/-- C1: for destination blocks bound by a prepare call, filling the local
residual scratch buffer with `v` and calling the accumulate operation
twice leaves every bound vector block equal to its pre-call value plus
`2 • v`; analogously for the local Jacobian scratch buffer and the bound
matrix blocks.  The length/shape hypotheses mirror libMesh's `operator+=`
precondition (equal shapes). -/
theorem accumulate_twice_adds_scratch_twice
    (assembly : Assembly) (ti : TaggingInterface) (ivar jvar : Nat)
    (v : DenseVector) (V : DenseMatrix) (tag mtag : TagID)
    (hv : ti.vector_tags.Nodup) (hm : ti.matrix_tags.Nodup)
    (htag : tag ∈ ti.vector_tags) (hmtag : mtag ∈ ti.matrix_tags)
    (_hlen : (assembly.res ivar tag).length = v.length)
    (_hshape : matShapeEq (assembly.jac ivar jvar mtag) V) :
    (accumulateTaggedLocalResidual
        { prepareVectorTag assembly ivar ti with local_re := v }
        (accumulateTaggedLocalResidual
          { prepareVectorTag assembly ivar ti with local_re := v } assembly)).res ivar tag
      = vecAdd (assembly.res ivar tag) (vecScale 2 v)
    ∧ (accumulateTaggedLocalMatrix
        { prepareMatrixTag assembly ivar jvar ti with local_ke := V }
        (accumulateTaggedLocalMatrix
          { prepareMatrixTag assembly ivar jvar ti with local_ke := V } assembly)).jac ivar jvar mtag
      = matAdd (assembly.jac ivar jvar mtag) (matScale 2 V) := by
  constructor
  · show (accumResLoop v (ti.vector_tags.map fun t => some (ivar, t))
        (accumResLoop v (ti.vector_tags.map fun t => some (ivar, t)) assembly)).res ivar tag = _
    rw [accumResLoop_res_mem v _ (re_keys_mem ivar htag) (re_keys_nodup ivar hv),
      accumResLoop_res_mem v _ (re_keys_mem ivar htag) (re_keys_nodup ivar hv),
      vecAdd_vecAdd_self]
  · show (accumJacLoop V (ti.matrix_tags.map fun t => some (ivar, jvar, t))
        (accumJacLoop V (ti.matrix_tags.map fun t => some (ivar, jvar, t)) assembly)).jac ivar jvar mtag = _
    rw [accumJacLoop_jac_mem V _ (ke_keys_mem ivar jvar hmtag) (ke_keys_nodup ivar jvar hm),
      accumJacLoop_jac_mem V _ (ke_keys_mem ivar jvar hmtag) (ke_keys_nodup ivar jvar hm),
      matAdd_matAdd_self]

/-- C1 witness: the theorem applied to the concrete fixtures, with tag 1
of variable 0 and scratch vector `[5, 5]`, matrix tag 0 of the pair
`(0, 0)` and scratch matrix `[[1, 2], [3, 4]]`. -/
theorem accumulate_twice_adds_scratch_twice_witness :
    (accumulateTaggedLocalResidual
        { prepareVectorTag asmW 0 tiW with local_re := [5, 5] }
        (accumulateTaggedLocalResidual
          { prepareVectorTag asmW 0 tiW with local_re := [5, 5] } asmW)).res 0 1
      = vecAdd (asmW.res 0 1) (vecScale 2 [5, 5])
    ∧ (accumulateTaggedLocalMatrix
        { prepareMatrixTag asmW 0 0 tiW with local_ke := [[1, 2], [3, 4]] }
        (accumulateTaggedLocalMatrix
          { prepareMatrixTag asmW 0 0 tiW with local_ke := [[1, 2], [3, 4]] } asmW)).jac 0 0 0
      = matAdd (asmW.jac 0 0 0) (matScale 2 [[1, 2], [3, 4]]) :=
  accumulate_twice_adds_scratch_twice asmW tiW 0 0 [5, 5] [[1, 2], [3, 4]] 1 0
    (by decide) (by decide) (by decide) (by decide) (by decide)
    (by constructor <;> first | rfl | constructor <;> first | rfl | exact List.Forall₂.nil)

/-- C2: filling the local residual scratch buffer with `v` and calling
the assign operation overwrites every bound vector block with exactly
`v`, regardless of its prior contents; analogously for the local
Jacobian scratch buffer and the bound matrix blocks. -/
theorem assign_overwrites_with_scratch
    (assembly : Assembly) (ti : TaggingInterface) (ivar jvar : Nat)
    (v : DenseVector) (V : DenseMatrix) (tag mtag : TagID)
    (hv : ti.vector_tags.Nodup) (hm : ti.matrix_tags.Nodup)
    (htag : tag ∈ ti.vector_tags) (hmtag : mtag ∈ ti.matrix_tags) :
    (assignTaggedLocalResidual
        { prepareVectorTag assembly ivar ti with local_re := v } assembly).res ivar tag = v
    ∧ (assignTaggedLocalMatrix
        { prepareMatrixTag assembly ivar jvar ti with local_ke := V } assembly).jac ivar jvar mtag
      = V := by
  constructor
  · show (assignResLoop v (ti.vector_tags.map fun t => some (ivar, t)) assembly).res ivar tag = v
    exact assignResLoop_res_mem v _ (re_keys_mem ivar htag) (re_keys_nodup ivar hv)
  · show (assignJacLoop V (ti.matrix_tags.map fun t => some (ivar, jvar, t)) assembly).jac ivar jvar mtag = V
    exact assignJacLoop_jac_mem V _ (ke_keys_mem ivar jvar hmtag) (ke_keys_nodup ivar jvar hm)

/-- C2 witness: assigning scratch `[5, 5]` overwrites block `(0, 1)` even
though its prior value `[0, 1]` differs; similarly for the matrix block. -/
theorem assign_overwrites_with_scratch_witness :
    (assignTaggedLocalResidual
        { prepareVectorTag asmW 0 tiW with local_re := [5, 5] } asmW).res 0 1 = [5, 5]
    ∧ (assignTaggedLocalMatrix
        { prepareMatrixTag asmW 0 0 tiW with local_ke := [[1, 2], [3, 4]] } asmW).jac 0 0 0
      = [[1, 2], [3, 4]] :=
  assign_overwrites_with_scratch asmW tiW 0 0 [5, 5] [[1, 2], [3, 4]] 1 0
    (by decide) (by decide) (by decide) (by decide)

/-- C3: with a non-empty active vector-tag set, `prepareVectorTag` binds
as many blocks as there are active vector tags and leaves the local
residual scratch buffer zero-filled at the first bound block's size;
analogously `prepareMatrixTag` for the matrix namespace, with the
scratch matrix zero-filled at the first bound block's `m() × n()`. -/
theorem prepare_binds_and_zeroes_scratch
    (assembly : Assembly) (ti : TaggingInterface) (ivar jvar : Nat)
    (hv : ti.vector_tags ≠ []) (hm : ti.matrix_tags ≠ []) :
    ((prepareVectorTag assembly ivar ti).re_blocks.length = ti.vector_tags.length
      ∧ (prepareVectorTag assembly ivar ti).local_re
          = List.replicate (assembly.res ivar (ti.vector_tags.headD 0)).length 0
      ∧ ∀ x ∈ (prepareVectorTag assembly ivar ti).local_re, x = 0)
    ∧ ((prepareMatrixTag assembly ivar jvar ti).ke_blocks.length = ti.matrix_tags.length
      ∧ (prepareMatrixTag assembly ivar jvar ti).local_ke
          = List.replicate (matM (assembly.jac ivar jvar (ti.matrix_tags.headD 0)))
              (List.replicate (matN (assembly.jac ivar jvar (ti.matrix_tags.headD 0))) 0)
      ∧ ∀ r ∈ (prepareMatrixTag assembly ivar jvar ti).local_ke, ∀ x ∈ r, x = 0) := by
  obtain ⟨t0, vrest, hveq⟩ := List.exists_cons_of_ne_nil hv
  obtain ⟨m0, mrest, hmeq⟩ := List.exists_cons_of_ne_nil hm
  constructor
  · refine ⟨by simp [prepareVectorTag], by simp [prepareVectorTag, hveq], ?_⟩
    intro x hx
    simp only [prepareVectorTag, List.mem_replicate] at hx
    exact hx.2
  · refine ⟨by simp [prepareMatrixTag], by simp [prepareMatrixTag, hmeq], ?_⟩
    intro r hr
    simp only [prepareMatrixTag, List.mem_replicate] at hr
    intro x hx
    rw [hr.2] at hx
    exact (List.mem_replicate.mp hx).2

/-- C3 witness: the theorem applied to the concrete fixtures for
variable 0 and variable pair `(0, 0)`. -/
theorem prepare_binds_and_zeroes_scratch_witness :
    ((prepareVectorTag asmW 0 tiW).re_blocks.length = tiW.vector_tags.length
      ∧ (prepareVectorTag asmW 0 tiW).local_re
          = List.replicate (asmW.res 0 (tiW.vector_tags.headD 0)).length 0
      ∧ ∀ x ∈ (prepareVectorTag asmW 0 tiW).local_re, x = 0)
    ∧ ((prepareMatrixTag asmW 0 0 tiW).ke_blocks.length = tiW.matrix_tags.length
      ∧ (prepareMatrixTag asmW 0 0 tiW).local_ke
          = List.replicate (matM (asmW.jac 0 0 (tiW.matrix_tags.headD 0)))
              (List.replicate (matN (asmW.jac 0 0 (tiW.matrix_tags.headD 0))) 0)
      ∧ ∀ r ∈ (prepareMatrixTag asmW 0 0 tiW).local_ke, ∀ x ∈ r, x = 0) :=
  prepare_binds_and_zeroes_scratch asmW tiW 0 0 (by decide) (by decide)

/-- A name that resolves to an id witnesses that the id is registered. -/
theorem idExists_of_lookup {reg : List (TagName × TagID)} {n : TagName} {t : TagID}
    (h : lookupTag reg n = some t) : reg.any (fun p => p.2 == t) = true := by
  unfold lookupTag at h
  cases hf : reg.find? (fun p => p.1 == n) with
  | none =>
    rw [hf] at h
    exact Option.noConfusion h
  | some q =>
    rw [hf] at h
    have hq : q ∈ reg := List.mem_of_find?_eq_some hf
    have hqt : q.2 = t := Option.some.inj h
    exact List.any_eq_true.mpr ⟨q, hq, by simp [hqt]⟩

/-- C4: when both configured selections are non-empty and every
configured name (extras included) resolves in its registry namespace,
construction succeeds and the active tag sets contain exactly the
resolved ids, with duplicate resolutions collapsed (the sets are
duplicate-free). -/
theorem construct_resolves_configured_tags
    (objName : String) (sp : SubProblem) (p : TagParams)
    (hv : p.vector_tags ≠ []) (hm : p.matrix_tags ≠ [])
    (hvr : ∀ n ∈ p.vector_tags ++ p.extra_vector_tags,
      (lookupTag sp.vectorRegistry n).isSome = true)
    (hmr : ∀ n ∈ p.matrix_tags ++ p.extra_matrix_tags,
      (lookupTag sp.matrixRegistry n).isSome = true) :
    ∃ ti, TaggingInterface.construct objName sp p = Except.ok ti
      ∧ (∀ x, x ∈ ti.vector_tags ↔
          ∃ n, n ∈ p.vector_tags ++ p.extra_vector_tags
            ∧ lookupTag sp.vectorRegistry n = some x)
      ∧ ti.vector_tags.Nodup
      ∧ (∀ x, x ∈ ti.matrix_tags ↔
          ∃ n, n ∈ p.matrix_tags ++ p.extra_matrix_tags
            ∧ lookupTag sp.matrixRegistry n = some x)
      ∧ ti.matrix_tags.Nodup := by
  obtain ⟨vset0, h1⟩ := insertResolvedTags_exists_ok sp.vectorRegistry "Vector" p.vector_tags []
    (fun n hn => hvr n (List.mem_append_left _ hn))
  obtain ⟨vset, h2⟩ := insertResolvedTags_exists_ok sp.vectorRegistry "Vector"
    p.extra_vector_tags vset0 (fun n hn => hvr n (List.mem_append_right _ hn))
  obtain ⟨mset0, h3⟩ := insertResolvedTags_exists_ok sp.matrixRegistry "Matrix" p.matrix_tags []
    (fun n hn => hmr n (List.mem_append_left _ hn))
  obtain ⟨mset, h4⟩ := insertResolvedTags_exists_ok sp.matrixRegistry "Matrix"
    p.extra_matrix_tags mset0 (fun n hn => hmr n (List.mem_append_right _ hn))
  refine ⟨⟨vset, mset, List.replicate vset.length none, List.replicate mset.length none,
    [], []⟩, ?_, ?_, ?_, ?_, ?_⟩
  · unfold TaggingInterface.construct
    rw [if_neg (by simp [List.isEmpty_iff]; exact hv)]
    simp only [h1, h2]
    rw [if_neg (by simp [List.isEmpty_iff]; exact hm)]
    simp only [h3, h4]
  · intro x
    show x ∈ vset ↔ _
    rw [insertResolvedTags_ok_mem h2 x, insertResolvedTags_ok_mem h1 x]
    simp only [List.not_mem_nil, false_or, List.mem_append, or_and_right, exists_or]
  · exact (insertResolvedTags_ok_sorted
      (insertResolvedTags_ok_sorted sortedTags_nil h1) h2).nodup
  · intro x
    show x ∈ mset ↔ _
    rw [insertResolvedTags_ok_mem h4 x, insertResolvedTags_ok_mem h3 x]
    simp only [List.not_mem_nil, false_or, List.mem_append, or_and_right, exists_or]
  · exact (insertResolvedTags_ok_sorted
      (insertResolvedTags_ok_sorted sortedTags_nil h3) h4).nodup

/-- C4 witness: constructing from the concrete registry and parameters
(the extra vector tag "time" duplicates the configured one). -/
theorem construct_resolves_configured_tags_witness :
    ∃ ti, TaggingInterface.construct "kernelW" spW pW = Except.ok ti
      ∧ (∀ x, x ∈ ti.vector_tags ↔
          ∃ n, n ∈ pW.vector_tags ++ pW.extra_vector_tags
            ∧ lookupTag spW.vectorRegistry n = some x)
      ∧ ti.vector_tags.Nodup
      ∧ (∀ x, x ∈ ti.matrix_tags ↔
          ∃ n, n ∈ pW.matrix_tags ++ pW.extra_matrix_tags
            ∧ lookupTag spW.matrixRegistry n = some x)
      ∧ ti.matrix_tags.Nodup :=
  construct_resolves_configured_tags "kernelW" spW pW
    (by decide) (by decide) (by decide) (by decide)

/-- C5: construction with an empty vector-tag selection fails with the
configuration error naming the owning object; so does an empty
matrix-tag selection once the vector side resolves (the vector check
runs first).  No object is produced in either case. -/
theorem construct_empty_selection_fails
    (objName : String) (sp : SubProblem) (p : TagParams)
    (hvr : ∀ n ∈ p.vector_tags ++ p.extra_vector_tags,
      (lookupTag sp.vectorRegistry n).isSome = true) :
    (p.vector_tags = [] →
      TaggingInterface.construct objName sp p
        = Except.error ("MUST provide at least one vector_tag for Kernel: " ++ objName))
    ∧ (p.matrix_tags = [] → p.vector_tags ≠ [] →
      TaggingInterface.construct objName sp p
        = Except.error ("MUST provide at least one matrix_tag for Kernel: " ++ objName)) := by
  constructor
  · intro hv
    unfold TaggingInterface.construct
    rw [if_pos (by simp [List.isEmpty_iff, hv])]
  · intro hm hv
    obtain ⟨vset0, h1⟩ := insertResolvedTags_exists_ok sp.vectorRegistry "Vector" p.vector_tags []
      (fun n hn => hvr n (List.mem_append_left _ hn))
    obtain ⟨vset, h2⟩ := insertResolvedTags_exists_ok sp.vectorRegistry "Vector"
      p.extra_vector_tags vset0 (fun n hn => hvr n (List.mem_append_right _ hn))
    unfold TaggingInterface.construct
    rw [if_neg (by simp [List.isEmpty_iff]; exact hv)]
    simp only [h1, h2]
    rw [if_pos (by simp [List.isEmpty_iff, hm])]

/-- C5 witness: the empty vector selection and the empty matrix
selection each produce the corresponding configuration error against
the concrete registry. -/
theorem construct_empty_selection_fails_witness :
    (TaggingInterface.construct "kernelW" spW
        { vector_tags := [], matrix_tags := ["system"],
          extra_vector_tags := [], extra_matrix_tags := [] }
      = Except.error ("MUST provide at least one vector_tag for Kernel: " ++ "kernelW"))
    ∧ (TaggingInterface.construct "kernelW" spW
        { vector_tags := ["nontime"], matrix_tags := [],
          extra_vector_tags := [], extra_matrix_tags := [] }
      = Except.error ("MUST provide at least one matrix_tag for Kernel: " ++ "kernelW")) :=
  ⟨(construct_empty_selection_fails "kernelW" spW
      { vector_tags := [], matrix_tags := ["system"],
        extra_vector_tags := [], extra_matrix_tags := [] }
      (by decide)).1 rfl,
   (construct_empty_selection_fails "kernelW" spW
      { vector_tags := ["nontime"], matrix_tags := [],
        extra_vector_tags := [], extra_matrix_tags := [] }
      (by decide)).2 rfl (by decide)⟩

/-- C6: each `use*Tag` overload called with an unregistered name or id
fails with the lookup error of its namespace and returns the active tag
state exactly as it was. -/
theorem use_unregistered_tag_fails
    (sp : SubProblem) (ti : TaggingInterface) (nv nm : TagName) (iv im : TagID)
    (hnv : sp.vectorTagExists nv = false) (hnm : sp.matrixTagExists nm = false)
    (hiv : sp.vectorTagIdExists iv = false) (him : sp.matrixTagIdExists im = false) :
    useVectorTagName sp nv ti
      = (some ("Vector tag " ++ nv ++ " does not exsit in system"), ti)
    ∧ useMatrixTagName sp nm ti
      = (some ("Matrix tag " ++ nm ++ " does not exsit in system"), ti)
    ∧ useVectorTagId sp iv ti
      = (some ("Vector tag " ++ toString iv ++ " does not exsit in system"), ti)
    ∧ useMatrixTagId sp im ti
      = (some ("Matrix tag " ++ toString im ++ " does not exsit in system"), ti) := by
  refine ⟨?_, ?_, ?_, ?_⟩
  · cases h : sp.getVectorTagID nv with
    | none => simp [useVectorTagName, h]
    | some t =>
      rw [SubProblem.vectorTagExists, h] at hnv
      simp at hnv
  · cases h : sp.getMatrixTagID nm with
    | none => simp [useMatrixTagName, h]
    | some t =>
      rw [SubProblem.matrixTagExists, h] at hnm
      simp at hnm
  · simp [useVectorTagId, hiv]
  · simp [useMatrixTagId, him]

/-- C6 witness: the unregistered name "late" and the unregistered id 9
fail in both namespaces of the concrete registry, leaving the state as
it was. -/
theorem use_unregistered_tag_fails_witness :
    useVectorTagName spW "late" tiW
      = (some ("Vector tag " ++ "late" ++ " does not exsit in system"), tiW)
    ∧ useMatrixTagName spW "late" tiW
      = (some ("Matrix tag " ++ "late" ++ " does not exsit in system"), tiW)
    ∧ useVectorTagId spW 9 tiW
      = (some ("Vector tag " ++ toString 9 ++ " does not exsit in system"), tiW)
    ∧ useMatrixTagId spW 9 tiW
      = (some ("Matrix tag " ++ toString 9 ++ " does not exsit in system"), tiW) :=
  use_unregistered_tag_fails spW tiW "late" "late" 9 9 rfl rfl rfl rfl

/-- C7: using a tag that is already active is idempotent in both
namespaces and through both overloads: the state is returned unchanged,
and the active set keeps exactly one entry for that tag. -/
theorem use_active_tag_idempotent
    (sp : SubProblem) (ti : TaggingInterface) (nv nm : TagName) (tv tm : TagID)
    (hsv : SortedTags ti.vector_tags) (hsm : SortedTags ti.matrix_tags)
    (hrv : sp.getVectorTagID nv = some tv) (hrm : sp.getMatrixTagID nm = some tm)
    (hmv : tv ∈ ti.vector_tags) (hmm : tm ∈ ti.matrix_tags) :
    useVectorTagName sp nv ti = (none, ti)
    ∧ useVectorTagId sp tv ti = (none, ti)
    ∧ ti.vector_tags.count tv = 1
    ∧ useMatrixTagName sp nm ti = (none, ti)
    ∧ useMatrixTagId sp tm ti = (none, ti)
    ∧ ti.matrix_tags.count tm = 1 := by
  refine ⟨?_, ?_, ?_, ?_, ?_, ?_⟩
  · simp only [useVectorTagName, hrv]
    rw [setInsert_of_mem hsv hmv]
  · rw [useVectorTagId,
      if_pos (show sp.vectorTagIdExists tv = true from idExists_of_lookup hrv),
      setInsert_of_mem hsv hmv]
  · exact List.count_eq_one_of_mem hsv.nodup hmv
  · simp only [useMatrixTagName, hrm]
    rw [setInsert_of_mem hsm hmm]
  · rw [useMatrixTagId,
      if_pos (show sp.matrixTagIdExists tm = true from idExists_of_lookup hrm),
      setInsert_of_mem hsm hmm]
  · exact List.count_eq_one_of_mem hsm.nodup hmm

/-- C7 witness: re-using the already-active tags "time" (vector id 1)
and "mass" (matrix id 1) on the concrete state changes nothing and
leaves single entries. -/
theorem use_active_tag_idempotent_witness :
    useVectorTagName spW "time" tiW = (none, tiW)
    ∧ useVectorTagId spW 1 tiW = (none, tiW)
    ∧ tiW.vector_tags.count 1 = 1
    ∧ useMatrixTagName spW "mass" tiW = (none, tiW)
    ∧ useMatrixTagId spW 1 tiW = (none, tiW)
    ∧ tiW.matrix_tags.count 1 = 1 :=
  use_active_tag_idempotent spW tiW "time" "mass" 1 1
    (by decide) (by decide) rfl rfl (by decide) (by decide)

/-- C8 counterexample: from the constructed state `tiC8` (one active
vector tag, binding array of size 1), `useVectorTagId` with the
registered id 1 succeeds and grows the active vector-tag set to size 2,
but the binding array keeps size 1 — the claimed invariant
`size(residualBlocks) = size(vectorTags)` is not restored by the
mutating `use` call. -/
theorem use_tag_leaves_binding_capacity_stale :
    TaggingInterface.construct "k" spC8 pC8 = Except.ok tiC8
    ∧ (useVectorTagId spC8 1 tiC8).1 = none
    ∧ (useVectorTagId spC8 1 tiC8).2.vector_tags.length = 2
    ∧ (useVectorTagId spC8 1 tiC8).2.re_blocks.length = 1
    ∧ (useVectorTagId spC8 1 tiC8).2.re_blocks.length
        ≠ (useVectorTagId spC8 1 tiC8).2.vector_tags.length := by
  refine ⟨rfl, rfl, rfl, rfl, by decide⟩

/-- C8 amended: the binding arrays are sized to the active-set sizes at
construction, and every `prepare` call re-establishes the size
invariant; the `use*Tag` operations leave the binding arrays untouched,
so the invariant can be stale between a `use` call that grows a tag set
and the next `prepare`. -/
theorem binding_capacity_set_by_construction_and_prepare
    (objName : String) (sp : SubProblem) (p : TagParams)
    (ti ti2 : TaggingInterface) (assembly : Assembly) (ivar jvar : Nat)
    (n : TagName) (tg : TagID)
    (h : TaggingInterface.construct objName sp p = Except.ok ti) :
    (ti.re_blocks.length = ti.vector_tags.length
      ∧ ti.ke_blocks.length = ti.matrix_tags.length)
    ∧ ((prepareVectorTag assembly ivar ti2).re_blocks.length
        = (prepareVectorTag assembly ivar ti2).vector_tags.length
      ∧ (prepareMatrixTag assembly ivar jvar ti2).ke_blocks.length
        = (prepareMatrixTag assembly ivar jvar ti2).matrix_tags.length)
    ∧ ((useVectorTagName sp n ti2).2.re_blocks = ti2.re_blocks
      ∧ (useVectorTagId sp tg ti2).2.re_blocks = ti2.re_blocks
      ∧ (useMatrixTagName sp n ti2).2.ke_blocks = ti2.ke_blocks
      ∧ (useMatrixTagId sp tg ti2).2.ke_blocks = ti2.ke_blocks) := by
  obtain ⟨hre, hke, -, -⟩ := construct_ok_fields h
  refine ⟨⟨by rw [hre]; simp, by rw [hke]; simp⟩,
    ⟨by simp [prepareVectorTag], by simp [prepareMatrixTag]⟩, ?_, ?_, ?_, ?_⟩
  · cases h2 : sp.getVectorTagID n <;> simp [useVectorTagName, h2]
  · unfold useVectorTagId
    split <;> rfl
  · cases h2 : sp.getMatrixTagID n <;> simp [useMatrixTagName, h2]
  · unfold useMatrixTagId
    split <;> rfl

/-- C8 amended witness: the amended statement at the concrete fixtures
(construction from `spC8`/`pC8`; prepare/use applied to `tiW`). -/
theorem binding_capacity_set_by_construction_and_prepare_witness :
    (tiC8.re_blocks.length = tiC8.vector_tags.length
      ∧ tiC8.ke_blocks.length = tiC8.matrix_tags.length)
    ∧ ((prepareVectorTag asmW 0 tiW).re_blocks.length
        = (prepareVectorTag asmW 0 tiW).vector_tags.length
      ∧ (prepareMatrixTag asmW 0 0 tiW).ke_blocks.length
        = (prepareMatrixTag asmW 0 0 tiW).matrix_tags.length)
    ∧ ((useVectorTagName spC8 "b" tiW).2.re_blocks = tiW.re_blocks
      ∧ (useVectorTagId spC8 1 tiW).2.re_blocks = tiW.re_blocks
      ∧ (useMatrixTagName spC8 "b" tiW).2.ke_blocks = tiW.ke_blocks
      ∧ (useMatrixTagId spC8 1 tiW).2.ke_blocks = tiW.ke_blocks) :=
  binding_capacity_set_by_construction_and_prepare "k" spC8 pC8 tiC8 tiW asmW 0 0 "b" 1 rfl

/-- The fully prepared concrete state: vector blocks bound for variable
0, matrix blocks for the pair `(0, 0)`. -/
def tiP : TaggingInterface := prepareMatrixTag asmW 0 0 (prepareVectorTag asmW 0 tiW)

/-- C9: the commit operations produce only an updated assembly state
(in this embedding their type keeps the interface state — scratch
buffers, tag sets and binding arrays — untouched), and within the
assembly they mutate nothing but the bound destination blocks: residual
commits leave every unbound residual block and the whole matrix side
unchanged, and symmetrically for the matrix commits. -/
theorem commit_mutates_only_bound_blocks
    (ti : TaggingInterface) (assembly : Assembly)
    (i i2 j2 : Nat) (t t2 : TagID)
    (hres : some (i, t) ∉ ti.re_blocks)
    (hjac : some (i2, j2, t2) ∉ ti.ke_blocks) :
    (accumulateTaggedLocalResidual ti assembly).res i t = assembly.res i t
    ∧ (assignTaggedLocalResidual ti assembly).res i t = assembly.res i t
    ∧ (accumulateTaggedLocalResidual ti assembly).jac = assembly.jac
    ∧ (assignTaggedLocalResidual ti assembly).jac = assembly.jac
    ∧ (accumulateTaggedLocalMatrix ti assembly).jac i2 j2 t2 = assembly.jac i2 j2 t2
    ∧ (assignTaggedLocalMatrix ti assembly).jac i2 j2 t2 = assembly.jac i2 j2 t2
    ∧ (accumulateTaggedLocalMatrix ti assembly).res = assembly.res
    ∧ (assignTaggedLocalMatrix ti assembly).res = assembly.res :=
  ⟨accumResLoop_res_not_mem _ _ hres, assignResLoop_res_not_mem _ _ hres,
   accumResLoop_jac _ _ _, assignResLoop_jac _ _ _,
   accumJacLoop_jac_not_mem _ _ hjac, assignJacLoop_jac_not_mem _ _ hjac,
   accumJacLoop_res _ _ _, assignJacLoop_res _ _ _⟩

/-- C9 witness: on the fully prepared state, the residual block of the
unbound variable 1 and the matrix block of the unbound pair `(1, 0)` are
untouched by all four commits, as are the opposite-namespace sides. -/
theorem commit_mutates_only_bound_blocks_witness :
    (accumulateTaggedLocalResidual tiP asmW).res 1 0 = asmW.res 1 0
    ∧ (assignTaggedLocalResidual tiP asmW).res 1 0 = asmW.res 1 0
    ∧ (accumulateTaggedLocalResidual tiP asmW).jac = asmW.jac
    ∧ (assignTaggedLocalResidual tiP asmW).jac = asmW.jac
    ∧ (accumulateTaggedLocalMatrix tiP asmW).jac 1 0 0 = asmW.jac 1 0 0
    ∧ (assignTaggedLocalMatrix tiP asmW).jac 1 0 0 = asmW.jac 1 0 0
    ∧ (accumulateTaggedLocalMatrix tiP asmW).res = asmW.res
    ∧ (assignTaggedLocalMatrix tiP asmW).res = asmW.res :=
  commit_mutates_only_bound_blocks tiP asmW 1 1 0 0 0 (by decide) (by decide)

/-- Extracting the tags back out of the vector binding keys gives the
tag list itself. -/
theorem boundTags_of_re_keys (ivar : Nat) (tags : List TagID) :
    (tags.map (fun t => some ((ivar, t) : Nat × TagID))).filterMap
      (fun ob => ob.map (fun k => k.2)) = tags := by
  induction tags with
  | nil => rfl
  | cons a l ih => simp [ih]

/-- Extracting the tags back out of the matrix binding keys gives the
tag list itself. -/
theorem boundTags_of_ke_keys (ivar jvar : Nat) (tags : List TagID) :
    (tags.map (fun t => some ((ivar, jvar, t) : Nat × Nat × TagID))).filterMap
      (fun ob => ob.map (fun k => k.2.2)) = tags := by
  induction tags with
  | nil => rfl
  | cons a l ih => simp [ih]

/-- C10: the prepare operations bind one block per active tag in the
set's iteration order, which under the `std::set` representation
invariant (hypotheses `hsv`, `hsm`) is ascending tag-id order: the bound
key list is the active set mapped in order, the bound tag sequence is
the active set itself, and that sequence is strictly increasing — the
block at position `i` carries the i-th smallest active tag id. -/
theorem prepare_binds_in_ascending_tag_order
    (assembly : Assembly) (ti : TaggingInterface) (ivar jvar : Nat)
    (hsv : SortedTags ti.vector_tags) (hsm : SortedTags ti.matrix_tags) :
    ((prepareVectorTag assembly ivar ti).re_blocks
        = ti.vector_tags.map (fun t => some (ivar, t))
      ∧ boundVectorTags (prepareVectorTag assembly ivar ti) = ti.vector_tags
      ∧ List.Pairwise (· < ·) (boundVectorTags (prepareVectorTag assembly ivar ti)))
    ∧ ((prepareMatrixTag assembly ivar jvar ti).ke_blocks
        = ti.matrix_tags.map (fun t => some (ivar, jvar, t))
      ∧ boundMatrixTags (prepareMatrixTag assembly ivar jvar ti) = ti.matrix_tags
      ∧ List.Pairwise (· < ·) (boundMatrixTags (prepareMatrixTag assembly ivar jvar ti))) := by
  have hv : boundVectorTags (prepareVectorTag assembly ivar ti) = ti.vector_tags := by
    show (ti.vector_tags.map fun t => some (ivar, t)).filterMap
      (fun ob => ob.map (fun k => k.2)) = ti.vector_tags
    exact boundTags_of_re_keys ivar ti.vector_tags
  have hm : boundMatrixTags (prepareMatrixTag assembly ivar jvar ti) = ti.matrix_tags := by
    show (ti.matrix_tags.map fun t => some (ivar, jvar, t)).filterMap
      (fun ob => ob.map (fun k => k.2.2)) = ti.matrix_tags
    exact boundTags_of_ke_keys ivar jvar ti.matrix_tags
  exact ⟨⟨rfl, hv, hv ▸ hsv⟩, ⟨rfl, hm, hm ▸ hsm⟩⟩

/-- C10 witness: on the concrete state the bound tag sequences are
`[0, 1]` for both namespaces, in ascending order. -/
theorem prepare_binds_in_ascending_tag_order_witness :
    ((prepareVectorTag asmW 0 tiW).re_blocks
        = tiW.vector_tags.map (fun t => some (0, t))
      ∧ boundVectorTags (prepareVectorTag asmW 0 tiW) = tiW.vector_tags
      ∧ List.Pairwise (· < ·) (boundVectorTags (prepareVectorTag asmW 0 tiW)))
    ∧ ((prepareMatrixTag asmW 0 0 tiW).ke_blocks
        = tiW.matrix_tags.map (fun t => some (0, 0, t))
      ∧ boundMatrixTags (prepareMatrixTag asmW 0 0 tiW) = tiW.matrix_tags
      ∧ List.Pairwise (· < ·) (boundMatrixTags (prepareMatrixTag asmW 0 0 tiW))) :=
  prepare_binds_in_ascending_tag_order asmW tiW 0 0 (by decide) (by decide)

end Moose
